import Mathlib

/-!
Verification of the Sentinel-2 web viewer's tile worker
(`src/Sentinel2GridLayoutWorker.js` and `STACCatalog.js`).

The JavaScript is shallowly embedded: numbers are `ℚ` (the values that occur
are exact decimals), `Math.round` is Mathlib's `round` (both round halves
toward positive infinity), byte stores into a `Uint8ClampedArray` clamp at
255, and JS `Map`s are association lists.  Asynchronous control flow is
embedded as explicit state passing; the points at which a task can observe
an external event (an await) are enumerated where a claim needs them.
-/

namespace S2WV

/-! ## JS primitives -/

/-- A JS runtime error as observed by `withRetry` and `createTile`:
the code classifies errors by `err.name == 'AbortError'`. -/
inductive JsError where
  | abortError : JsError
  | other : String → JsError
deriving DecidableEq

/-- Byte store into a `Uint8ClampedArray` slot (ImageData.data): values
above 255 clamp to 255. -/
def byteClamp (v : ℕ) : ℕ := min v 255

/-! ## withRetry (Sentinel2GridLayoutWorker.js lines 32-57)

`withRetry(fn, retries = 3, delay = 500)` wraps an async operation.  The
wrapped operation is embedded as an oracle `fn : ℕ → Except JsError α`
giving the outcome of its k-th invocation.  The trace records the result,
how many times `fn` was invoked, and the waits (in ms) performed between
attempts, in order. -/

structure RetryTrace (α : Type) where
  result : Except JsError α
  calls : ℕ
  waits : List ℚ

/-- One loop of `withRetry`: `while (attempt < retries)` try `fn`; on an
`AbortError` rethrow at once; otherwise remember the error, increment
`attempt`, and if attempts remain wait `delay` and double it.  After the
loop the last error is rethrown.  `fuel` bounds the remaining loop
iterations and is started at `retries`, so the `attempt < retries` guard
always fails before the fuel does. -/
def withRetryGo (fn : ℕ → Except JsError α) (retries : ℕ) :
    ℕ → ℕ → ℚ → Option JsError → ℕ → List ℚ → RetryTrace α
  | 0, _, _, lastError, calls, waits =>
      ⟨.error (lastError.getD (.other "undefined")), calls, waits⟩
  | fuel + 1, attempt, delay, lastError, calls, waits =>
    if attempt < retries then
      match fn attempt with
      | .ok v => ⟨.ok v, calls + 1, waits⟩
      | .error e =>
        if e = .abortError then
          ⟨.error e, calls + 1, waits⟩
        else if attempt + 1 < retries then
          withRetryGo fn retries fuel (attempt + 1) (delay * 2) (some e)
            (calls + 1) (waits ++ [delay])
        else
          withRetryGo fn retries fuel (attempt + 1) delay (some e)
            (calls + 1) waits
    else ⟨.error (lastError.getD (.other "undefined")), calls, waits⟩

/-- `withRetry(fn)` with the source defaults `retries = 3`, `delay = 500`
(every call site in the worker uses the defaults). -/
def withRetry (fn : ℕ → Except JsError α) : RetryTrace α :=
  withRetryGo fn 3 3 0 500 none 0 []

/-! ## Reader cache (Sentinel2GridLayoutWorker.js lines 177-198)

`openGeoTiffFile` keeps `#tiffCache : Map url ↦ {geotiff, token}`.  The
opaque reader handle returned by `withRetry(fromUrl)(href)` is embedded as
a fresh natural number drawn from `nextHandle`; `opens` records the URLs
actually passed to `fromUrl`, in order. -/

structure TiffEntry where
  geotiff : ℕ
  token : String
deriving DecidableEq

/-- Association-list model of a JS `Map` keyed by URL. -/
def mapFind (m : List (String × TiffEntry)) (k : String) : Option TiffEntry :=
  match m with
  | [] => none
  | (k2, v) :: rest => if k2 = k then some v else mapFind rest k

/-- `Map.set`: replaces the value under an existing key, else appends. -/
def mapSet (m : List (String × TiffEntry)) (k : String) (v : TiffEntry) :
    List (String × TiffEntry) :=
  match m with
  | [] => [(k, v)]
  | (k2, v2) :: rest =>
      if k2 = k then (k2, v) :: rest else (k2, v2) :: mapSet rest k v

/-- `Map.delete`. -/
def mapDelete (m : List (String × TiffEntry)) (k : String) :
    List (String × TiffEntry) :=
  match m with
  | [] => []
  | (k2, v2) :: rest =>
      if k2 = k then rest else (k2, v2) :: mapDelete rest k

structure LoaderCacheState where
  tiffCache : List (String × TiffEntry)
  nextHandle : ℕ
  opens : List String
deriving DecidableEq

/-- The cache-miss tail of `openGeoTiffFile`: build
`href = geoTiffUrl?mspcSasToken`, open a fresh reader via
`withRetry(fromUrl)(href)` (a fresh handle id here), store
`{geotiff, token}` under the raw URL, and return the handle. -/
def openGeoTiffFresh (mspcSasToken geoTiffUrl : String)
    (st : LoaderCacheState) : ℕ × LoaderCacheState :=
  let href := geoTiffUrl ++ "?" ++ mspcSasToken
  let tiff := st.nextHandle
  (tiff,
    { tiffCache := mapSet st.tiffCache geoTiffUrl ⟨tiff, mspcSasToken⟩
      nextHandle := st.nextHandle + 1
      opens := st.opens ++ [href] })

/-- `openGeoTiffFile(geoTiffUrl)` with the current module token
`mspcSasToken`: a cached entry whose stored token equals the current token
is returned as-is; a stale entry is removed and the open falls through to
`openGeoTiffFresh`. -/
def openGeoTiffFile (mspcSasToken geoTiffUrl : String)
    (st : LoaderCacheState) : ℕ × LoaderCacheState :=
  match mapFind st.tiffCache geoTiffUrl with
  | some cachedGeotiff =>
    if cachedGeotiff.token = mspcSasToken then (cachedGeotiff.geotiff, st)
    else
      openGeoTiffFresh mspcSasToken geoTiffUrl
        { st with tiffCache := mapDelete st.tiffCache geoTiffUrl }
  | none => openGeoTiffFresh mspcSasToken geoTiffUrl st

lemma mapFind_mapSet_self (m : List (String × TiffEntry)) (k : String)
    (v : TiffEntry) : mapFind (mapSet m k v) k = some v := by
  induction m with
  | nil => simp [mapSet, mapFind]
  | cons hd tl ih =>
    obtain ⟨k2, v2⟩ := hd
    by_cases h : k2 = k <;> simp [mapSet, mapFind, h, ih]

/-- C7: withRetry invokes the wrapped operation at most 3 times; between
attempts it waits, starting at 500 and doubling after each failure, so a
fully failing run waits [500, 1000] and rethrows the last (third) error;
an AbortError is rethrown immediately, after j+1 invocations and no
further retry, when it occurs at attempt j. -/
theorem withRetry_policy (α : Type) (fn : ℕ → Except JsError α) :
    (withRetry fn).calls ≤ 3
    ∧ (∀ e0 e1 e2 : String,
        fn 0 = .error (.other e0) → fn 1 = .error (.other e1) →
        fn 2 = .error (.other e2) →
        (withRetry fn).calls = 3 ∧ (withRetry fn).waits = [500, 1000]
          ∧ (withRetry fn).result = .error (.other e2))
    ∧ (∀ j, j < 3 → fn j = .error .abortError →
        (∀ k, k < j → ∃ s, fn k = .error (.other s)) →
        (withRetry fn).result = .error .abortError
          ∧ (withRetry fn).calls = j + 1
          ∧ (withRetry fn).waits.length = j) := by
  refine ⟨?_, ?_, ?_⟩
  · cases h0 : fn 0 with
    | ok v => simp [withRetry, withRetryGo, h0]
    | error e0 =>
      by_cases he0 : e0 = .abortError
      · simp [withRetry, withRetryGo, h0, he0]
      · cases h1 : fn 1 with
        | ok v => simp [withRetry, withRetryGo, h0, h1, he0]
        | error e1 =>
          by_cases he1 : e1 = .abortError
          · simp [withRetry, withRetryGo, h0, h1, he0, he1]
          · cases h2 : fn 2 with
            | ok v => simp [withRetry, withRetryGo, h0, h1, h2, he0, he1]
            | error e2 =>
              by_cases he2 : e2 = .abortError <;>
                simp [withRetry, withRetryGo, h0, h1, h2, he0, he1, he2]
  · intro e0 e1 e2 h0 h1 h2
    refine ⟨?_, ?_, ?_⟩ <;> simp [withRetry, withRetryGo, h0, h1, h2]
    norm_num
  · intro j hj habort hprev
    interval_cases j
    · simp [withRetry, withRetryGo, habort]
    · obtain ⟨s0, h0⟩ := hprev 0 (by omega)
      simp [withRetry, withRetryGo, h0, habort]
    · obtain ⟨s0, h0⟩ := hprev 0 (by omega)
      obtain ⟨s1, h1⟩ := hprev 1 (by omega)
      simp [withRetry, withRetryGo, h0, h1, habort]

/-- Witness for C7 at two concrete operations: one failing on all three
attempts with plain errors, one aborting on its second attempt. -/
theorem withRetry_policy_witness :
    ((withRetry (fun k =>
        if k = 0 then Except.error (α := Unit) (JsError.other "E0")
        else if k = 1 then Except.error (JsError.other "E1")
        else Except.error (JsError.other "E2"))).calls = 3
      ∧ (withRetry (fun k =>
        if k = 0 then Except.error (α := Unit) (JsError.other "E0")
        else if k = 1 then Except.error (JsError.other "E1")
        else Except.error (JsError.other "E2"))).waits = [500, 1000])
    ∧ (withRetry (fun k =>
        if k = 0 then Except.error (α := Unit) (JsError.other "E0")
        else Except.error JsError.abortError)).calls = 2 := by
  constructor
  · have h := (withRetry_policy Unit (fun k =>
      if k = 0 then Except.error (JsError.other "E0")
      else if k = 1 then Except.error (JsError.other "E1")
      else Except.error (JsError.other "E2"))).2.1 "E0" "E1" "E2" rfl rfl rfl
    exact ⟨h.1, h.2.1⟩
  · have h := (withRetry_policy Unit (fun k =>
      if k = 0 then Except.error (JsError.other "E0")
      else Except.error JsError.abortError)).2.2 1 (by omega) rfl
      (fun k hk => by interval_cases k; exact ⟨"E0", rfl⟩)
    exact h.2.1

/-- C8: opening the same asset URL twice with an unchanged token returns
the same cached reader handle and leaves the loader state (in particular
the list of performed opens) unchanged; when the cached entry's token
differs from the current one the stale entry is deleted, a fresh reader is
opened on the URL with the current token appended, and it is stored in the
cache in place of the old entry. -/
theorem openGeoTiffFile_cache (tok tok2 url : String) (st : LoaderCacheState) :
    ((openGeoTiffFile tok url (openGeoTiffFile tok url st).2).1
        = (openGeoTiffFile tok url st).1
      ∧ (openGeoTiffFile tok url (openGeoTiffFile tok url st).2).2
        = (openGeoTiffFile tok url st).2)
    ∧ (∀ entry, mapFind st.tiffCache url = some entry → entry.token ≠ tok2 →
        openGeoTiffFile tok2 url st =
          (st.nextHandle,
            { tiffCache := mapSet (mapDelete st.tiffCache url) url
                ⟨st.nextHandle, tok2⟩
              nextHandle := st.nextHandle + 1
              opens := st.opens ++ [url ++ "?" ++ tok2] })
          ∧ mapFind (openGeoTiffFile tok2 url st).2.tiffCache url
            = some ⟨st.nextHandle, tok2⟩) := by
  constructor
  · cases hfind : mapFind st.tiffCache url with
    | some entry =>
      by_cases htok : entry.token = tok
      · simp [openGeoTiffFile, hfind, htok]
      · simp [openGeoTiffFile, openGeoTiffFresh, hfind, htok,
          mapFind_mapSet_self]
    | none =>
      simp [openGeoTiffFile, openGeoTiffFresh, hfind, mapFind_mapSet_self]
  · intro entry hfind htok
    constructor
    · simp [openGeoTiffFile, openGeoTiffFresh, hfind, htok]
    · simp [openGeoTiffFile, openGeoTiffFresh, hfind, htok,
        mapFind_mapSet_self]

/-- Witness for C8: a concrete cache holding handle 7 for URL "u" under
token "t1", then looked up under the rotated token "t2". -/
theorem openGeoTiffFile_cache_witness :
    mapFind (LoaderCacheState.tiffCache ⟨[("u", ⟨7, "t1"⟩)], 8, []⟩) "u"
      = some ⟨7, "t1"⟩
    ∧ TiffEntry.token ⟨7, "t1"⟩ ≠ "t2"
    ∧ openGeoTiffFile "t2" "u" ⟨[("u", ⟨7, "t1"⟩)], 8, []⟩ =
        (8, { tiffCache := mapSet (mapDelete [("u", ⟨7, "t1"⟩)] "u") "u" ⟨8, "t2"⟩
              nextHandle := 9
              opens := [] ++ ["u" ++ "?" ++ "t2"] }) := by
  refine ⟨by decide, by decide, ?_⟩
  exact ((openGeoTiffFile_cache "t1" "t2" "u"
    ⟨[("u", ⟨7, "t1"⟩)], 8, []⟩).2 ⟨7, "t1"⟩ (by decide) (by decide)).1

/-! ## createTile / unloadTile interleaving (worker lines 77-175)

`createTile` (on a render-cache miss) registers an AbortController, awaits
`fetchLatestS2`, then `loadAndDrawTile` walks the scenes — checking
`signal.aborted` at the loop head and after each `openGeoTiffFile`, while
an abort processed during an in-flight `readRasters` rejects that await
with an AbortError — then checks `signal.aborted` once more, awaits
`createImageBitmap`, posts the `done` message and, on full coverage,
writes the render cache.  Any exception reaching `createTile`'s catch is
posted as a `done` message carrying the error.  `unloadTile` aborts the
controller; the single abort event is identified by the await during which
it is processed (`none` = never, i.e. after `createTile` resolved). -/

/-- The await points of one `createTile` run, in program order; scene
awaits carry the scene's index. -/
inductive AwaitPoint where
  | fetchStacItems : AwaitPoint
  | openFile : ℕ → AwaitPoint
  | readRaster : ℕ → AwaitPoint
  | makeBitmap : AwaitPoint
deriving DecidableEq

/-- A `done` message posted by the worker for the tile's key. -/
inductive WorkerMsg where
  | doneOk : WorkerMsg
  | doneError : JsError → WorkerMsg
deriving DecidableEq

/-- `loadAndDrawTile`'s scene loop: `ab` is `signal.aborted` on entry.
Returns `.error ()` when an in-flight `readRasters` rejects with an
AbortError, `.ok aborted` when the loop returns normally. -/
def loadAndDrawRun (abort : Option AwaitPoint) :
    List ℕ → Bool → Except Unit Bool
  | [], ab => .ok ab
  | k :: rest, ab =>
    if ab then .ok ab
    else if abort = some (.openFile k) then .ok true
    else if abort = some (.readRaster k) then .error ()
    else loadAndDrawRun abort rest false

/-- One `createTile` run on a render-cache miss: the posted `done`
messages for the key, and whether a render-cache entry for the key was
written. -/
def createTileRun (abort : Option AwaitPoint) (scenes : List ℕ)
    (fullCoverage : Bool) : List WorkerMsg × Bool :=
  match loadAndDrawRun abort scenes (decide (abort = some .fetchStacItems)) with
  | .error () => ([.doneError .abortError], false)
  | .ok ab =>
    if ab then ([], false)
    else ([.doneOk], fullCoverage)

lemma loadAndDrawRun_openFile (k : ℕ) (scenes : List ℕ) (h : k ∈ scenes) :
    loadAndDrawRun (some (.openFile k)) scenes false = .ok true := by
  induction scenes with
  | nil => cases h
  | cons a rest ih =>
    rcases List.mem_cons.mp h with rfl | hrest
    · simp [loadAndDrawRun]
    · by_cases hak : a = k
      · subst hak; simp [loadAndDrawRun]
      · simp [loadAndDrawRun, Ne.symm hak, ih hrest]

lemma loadAndDrawRun_readRaster (k : ℕ) (scenes : List ℕ) (h : k ∈ scenes) :
    loadAndDrawRun (some (.readRaster k)) scenes false = .error () := by
  induction scenes with
  | nil => cases h
  | cons a rest ih =>
    rcases List.mem_cons.mp h with rfl | hrest
    · simp [loadAndDrawRun]
    · by_cases hak : a = k
      · subst hak; simp [loadAndDrawRun]
      · simp [loadAndDrawRun, Ne.symm hak, ih hrest]

/-- C2 counterexample: with one scene, an unload processed while that
scene's `readRasters` is in flight makes the rejected read's AbortError
reach `createTile`'s catch, which posts a `done` message carrying the
error; and an unload processed during the final `createImageBitmap` (after
the last `signal.aborted` checkpoint) still posts the success `done` and
still writes the render-cache entry. -/
theorem createTile_done_after_unload :
    createTileRun (some (.readRaster 0)) [0] true
        = ([.doneError .abortError], false)
      ∧ createTileRun (some .makeBitmap) [0] true = ([.doneOk], true) := by
  constructor <;> rfl

/-- C2 amended: if the unload is processed during the catalog fetch or
during a reader open — so that a `signal.aborted` checkpoint observes it —
no `done` message for the key is posted and no render-cache entry is
written; if it is processed during an in-flight raster read, the only
`done` message posted is the one carrying the AbortError, and still no
render-cache entry is written. -/
theorem createTile_abort_checkpoints (scenes : List ℕ) (fullCoverage : Bool) :
    createTileRun (some .fetchStacItems) scenes fullCoverage = ([], false)
    ∧ (∀ k, k ∈ scenes →
        createTileRun (some (.openFile k)) scenes fullCoverage = ([], false))
    ∧ (∀ k, k ∈ scenes →
        createTileRun (some (.readRaster k)) scenes fullCoverage
          = ([.doneError .abortError], false)) := by
  refine ⟨?_, ?_, ?_⟩
  · cases scenes <;> simp [createTileRun, loadAndDrawRun]
  · intro k hk
    simp [createTileRun, loadAndDrawRun_openFile k scenes hk]
  · intro k hk
    simp [createTileRun, loadAndDrawRun_readRaster k scenes hk]

/-- Witness for C2 (amended) at a concrete two-scene run aborted while
opening the second scene's GeoTIFF. -/
theorem createTile_abort_checkpoints_witness :
    (1 ∈ [0, 1]) ∧ createTileRun (some (.openFile 1)) [0, 1] true = ([], false) := by
  exact ⟨by decide,
    (createTile_abort_checkpoints [0, 1] true).2.1 1 (by decide)⟩

/-! ## STACCatalog (STACCatalog.js)

Polygon geometry is abstracted by a type `P` together with the three turf
operations the catalog uses: `inter` (turf.intersect, `null` when the
polygons do not meet), `unionP` (turf.union) and `area` (turf.area).  The
scene cache (`#stacCache`, a `Map` keyed by id) is a list in insertion
order with by-id idempotent insert.  The remote search is an oracle
`network : ℕ → List (Scene P)` giving the features returned by the i-th
round trip of a request. -/

/-- The near-100% coverage threshold `bboxCoverageThr = 1 - 1e-4`. -/
def bboxCoverageThr : ℚ := 1 - 1/10000

structure Scene (P : Type) where
  id : String
  geometry : P
  datetime : String
deriving DecidableEq

/-- An entry of `tilesIndexes` in `findBestItem`. -/
structure TileIndex (P : Type) where
  id : String
  bboxIntersectPolygon : P
  intersectRatio : ℚ
  datetime : String
  stacItem : Scene P
deriving DecidableEq

/-- Decimal-digit run to a number; `none` on the first non-digit. -/
def digitsVal (acc : ℕ) : List Char → Option ℕ
  | [] => some acc
  | c :: rest =>
      if c.isDigit then digitsVal (acc * 10 + (c.toNat - 48)) rest else none

/-- ECMAScript ToNumber restricted to the strings this program compares:
an unsigned decimal integer string parses, anything else is NaN (`none`).
An ISO datetime such as "2024-06-01T00:00:00Z" contains characters no JS
numeric literal allows, so both the real ToNumber and this restriction
give NaN on every `properties.datetime` value. -/
def jsToNumber (s : String) : Option ℚ :=
  (digitsVal 0 s.data).map (fun n => (n : ℚ))

/-- JS subtraction with NaN propagation. -/
def jsSub (x y : Option ℚ) : Option ℚ :=
  match x, y with
  | some a, some b => some (a - b)
  | _, _ => none

/-- ECMAScript SortCompare of a comparator return value: a NaN comparator
result counts as +0 ("If v is NaN, return +0F"). -/
def jsSortValue (v : Option ℚ) : ℚ := v.getD 0

/-- The sort comparator of `findBestItem` (STACCatalog.js lines 505-509):
`if (a.datetime != b.datetime) return b.datetime - a.datetime; return
b.intersectRatio - a.intersectRatio`. -/
def tilesCompare (a b : TileIndex P) : ℚ :=
  if a.datetime ≠ b.datetime then
    jsSortValue (jsSub (jsToNumber b.datetime) (jsToNumber a.datetime))
  else b.intersectRatio - a.intersectRatio

/-- Stable insertion step: the new element `a` goes after every element
`b` of the sorted prefix with `cmp b a ≤ 0` (strictly smaller, or a tie —
ties keep the earlier element first, as the ES2019 stable sort does). -/
def sortInsert (cmp : α → α → ℚ) (a : α) : List α → List α
  | [] => [a]
  | b :: rest =>
      if cmp b a ≤ 0 then b :: sortInsert cmp a rest else a :: b :: rest

/-- `Array.prototype.sort(cmp)`: stable, so modelled by stable insertion
sort over the elements in order. -/
def jsSort (cmp : α → α → ℚ) (l : List α) : List α :=
  l.foldl (fun acc a => sortInsert cmp a acc) []

/-- `Math.round(intersectionRatio*100)/100` (line 496). -/
def roundRatio2 (r : ℚ) : ℚ := (round (r * 100) : ℚ) / 100

/-- The candidate scan of `findBestItem` (lines 487-500): every cached
scene whose geometry intersects the query bbox polygon becomes a
`TileIndex` with its intersection polygon and 2-decimal-rounded ratio. -/
def candidateList (inter : P → P → Option P) (area : P → ℚ)
    (bboxPolygon : P) (bboxArea : ℚ) (cache : List (Scene P)) :
    List (TileIndex P) :=
  cache.filterMap (fun item =>
    match inter bboxPolygon item.geometry with
    | none => none
    | some intersectionPolygon =>
        some ⟨item.id, intersectionPolygon,
          roundRatio2 (area intersectionPolygon / bboxArea),
          item.datetime, item⟩)

/-- The running state of the greedy selection walk (lines 511-513). -/
structure SelState (P : Type) where
  selected : List (Scene P)
  poly : P
  ratio : ℚ
deriving DecidableEq

/-- The greedy walk of `findBestItem` (lines 515-523): while the running
ratio is below `bboxCoverageThr`, union the next candidate's intersection
polygon into the running polygon and accept the candidate exactly when the
unioned ratio improves on the running ratio by more than 0.001. -/
def selectLoop (unionP : P → P → P) (area : P → ℚ) (bboxArea : ℚ) :
    List (TileIndex P) → SelState P → SelState P
  | [], st => st
  | t :: rest, st =>
    if st.ratio < bboxCoverageThr then
      let newPoly := unionP st.poly t.bboxIntersectPolygon
      let newRatio := area newPoly / bboxArea
      if newRatio - st.ratio > 1/1000 then
        selectLoop unionP area bboxArea rest
          ⟨st.selected ++ [t.stacItem], newPoly, newRatio⟩
      else selectLoop unionP area bboxArea rest st
    else st

/-- `findBestItem` (lines 478-526): scan, sort, seed with the first sorted
candidate, walk the rest greedily; `[null, 0]` on an empty cache or no
intersecting candidate. -/
def findBestItem (inter : P → P → Option P) (unionP : P → P → P)
    (area : P → ℚ) (bboxPolygon : P) (bboxArea : ℚ)
    (cache : List (Scene P)) : Option (List (Scene P)) × ℚ :=
  if cache.isEmpty then (none, 0)
  else
    match jsSort tilesCompare
        (candidateList inter area bboxPolygon bboxArea cache) with
    | [] => (none, 0)
    | t0 :: rest =>
      let st := selectLoop unionP area bboxArea rest
        ⟨[t0.stacItem], t0.bboxIntersectPolygon, t0.intersectRatio⟩
      (some st.selected, st.ratio)

/-- `updateCachedItems` merge (lines 470-475): insert a fetched scene only
when no cached scene has its id. -/
def insertById (cache : List (Scene P)) (item : Scene P) : List (Scene P) :=
  if cache.any (fun s => s.id == item.id) then cache else cache ++ [item]

/-- `updateCachedItems` applied to one network response. -/
def updateCachedItems (cache : List (Scene P)) (newItems : List (Scene P)) :
    List (Scene P) :=
  newItems.foldl insertById cache

/-- The refinement loop of `fetchLatestS2` (lines 450-453):
`for (let i = 0; ratio < bboxCoverageThr && i < 2; i++)` re-fetches and
re-selects; `fuel` starts at 2 and mirrors the `i < 2` bound.  The result
also carries the number of network round trips performed (one per
`updateCachedItems`). -/
def fetchLoop (inter : P → P → Option P) (unionP : P → P → P) (area : P → ℚ)
    (bboxPolygon : P) (bboxArea : ℚ) (network : ℕ → List (Scene P)) :
    ℕ → ℕ → List (Scene P) → (Option (List (Scene P)) × ℚ) → ℕ →
      List (Scene P) × (Option (List (Scene P)) × ℚ) × ℕ
  | 0, _, cache, best, nCalls => (cache, best, nCalls)
  | fuel + 1, i, cache, best, nCalls =>
    if best.2 < bboxCoverageThr ∧ i < 2 then
      let cache2 := updateCachedItems cache (network nCalls)
      let best2 := findBestItem inter unionP area bboxPolygon bboxArea cache2
      fetchLoop inter unionP area bboxPolygon bboxArea network
        fuel (i + 1) cache2 best2 (nCalls + 1)
    else (cache, best, nCalls)

/-- `fetchLatestS2` (lines 447-465): select from the cache, refine at most
twice over the network, then return `[stacItems, ratio >= thr]` when the
final ratio exceeds 0.01 and `[null, false]` otherwise.  (The extra
`findBestItem` call on the logging path at line 458 is pure and is
omitted.)  The second and third components are the final cache and the
number of network round trips. -/
def fetchLatestS2 (inter : P → P → Option P) (unionP : P → P → P)
    (area : P → ℚ) (bboxPolygon : P) (bboxArea : ℚ)
    (network : ℕ → List (Scene P)) (cache0 : List (Scene P)) :
    (Option (List (Scene P)) × Bool) × List (Scene P) × ℕ :=
  let best0 := findBestItem inter unionP area bboxPolygon bboxArea cache0
  let r := fetchLoop inter unionP area bboxPolygon bboxArea network
    2 0 cache0 best0 0
  if r.2.1.2 > 1/100 then
    ((r.2.1.1, decide (r.2.1.2 ≥ bboxCoverageThr)), r.1, r.2.2)
  else ((none, false), r.1, r.2.2)

/-- The shape of the `done` message `createTile` (worker lines 94-139)
posts as a function of the value `fetchLatestS2` resolved with:
`for (const stacItem of stacItems)` over the `null` returned for
no-coverage throws a TypeError, which reaches the catch and is posted as
the message's error; over a scene list the load proceeds and (without an
abort) posts `done` with `error: null`. -/
def createTileOnFetch (fetched : Option (List (Scene P)) × Bool) : WorkerMsg :=
  match fetched.1 with
  | none => .doneError (.other "TypeError")
  | some _ => .doneOk

lemma jsSort_pair (cmp : α → α → ℚ) (a b : α) :
    jsSort cmp [a, b] = if cmp a b ≤ 0 then [a, b] else [b, a] := by
  by_cases h : cmp a b ≤ 0 <;> simp [jsSort, sortInsert, h]

/-- Older-first candidate pair with distinct timestamps, equal ratios. -/
def tOlder : TileIndex Unit :=
  ⟨"older", (), 1, "2024-01-05T00:00:00Z", ⟨"older", (), "2024-01-05T00:00:00Z"⟩⟩

def tNewer : TileIndex Unit :=
  ⟨"newer", (), 1, "2024-06-01T00:00:00Z", ⟨"newer", (), "2024-06-01T00:00:00Z"⟩⟩

/-- Same-timestamp candidate pair with different ratios. -/
def tLow : TileIndex Unit :=
  ⟨"low", (), 3/10, "2024-06-01T00:00:00Z", ⟨"low", (), "2024-06-01T00:00:00Z"⟩⟩

def tHigh : TileIndex Unit :=
  ⟨"high", (), 9/10, "2024-06-01T00:00:00Z", ⟨"high", (), "2024-06-01T00:00:00Z"⟩⟩

/-- C4: at a concrete input the sort does NOT rank the more recent
candidate first: the comparator subtracts ISO datetime strings, which is
NaN, and SortCompare maps NaN to +0, so candidates with different
timestamps compare equal and keep insertion order — here the older one
stays first.  The tie rule does work: with identical timestamps the
higher-ratio candidate is ranked first. -/
theorem tilesSort_ignores_datetime :
    (jsSort tilesCompare [tOlder, tNewer]).map TileIndex.id
        = ["older", "newer"]
      ∧ (jsSort tilesCompare [tLow, tHigh]).map TileIndex.id
        = ["high", "low"] := by
  constructor
  · have hc : tilesCompare tOlder tNewer = 0 := by
      rw [tilesCompare, if_pos (by decide)]
      rfl
    rw [jsSort_pair, if_pos (by rw [hc])]
    rfl
  · have hc : ¬ tilesCompare tLow tHigh ≤ 0 := by
      rw [tilesCompare, if_neg (by decide)]
      norm_num [tLow, tHigh]
    rw [jsSort_pair, if_neg hc]
    rfl

lemma selectLoop_length_le (unionP : P → P → P) (area : P → ℚ)
    (bboxArea : ℚ) (cands : List (TileIndex P)) (st : SelState P) :
    st.selected.length
      ≤ (selectLoop unionP area bboxArea cands st).selected.length := by
  induction cands generalizing st with
  | nil => simp [selectLoop]
  | cons t rest ih =>
    simp only [selectLoop]
    split_ifs with h1 h2
    · calc st.selected.length
          ≤ (st.selected ++ [t.stacItem]).length := by simp
        _ ≤ _ := ih ⟨st.selected ++ [t.stacItem],
            unionP st.poly t.bboxIntersectPolygon,
            area (unionP st.poly t.bboxIntersectPolygon) / bboxArea⟩
    · exact ih st
    · exact le_refl _

lemma selectLoop_margin (unionP : P → P → P) (area : P → ℚ)
    (bboxArea : ℚ) (cands : List (TileIndex P)) (st : SelState P) :
    st.ratio + (((selectLoop unionP area bboxArea cands st).selected.length
        - st.selected.length : ℕ) : ℚ) / 1000
      ≤ (selectLoop unionP area bboxArea cands st).ratio := by
  induction cands generalizing st with
  | nil => simp [selectLoop]
  | cons t rest ih =>
    simp only [selectLoop]
    split_ifs with h1 h2
    · have hlen := selectLoop_length_le unionP area bboxArea rest
        ⟨st.selected ++ [t.stacItem],
          unionP st.poly t.bboxIntersectPolygon,
          area (unionP st.poly t.bboxIntersectPolygon) / bboxArea⟩
      have hih := ih ⟨st.selected ++ [t.stacItem],
          unionP st.poly t.bboxIntersectPolygon,
          area (unionP st.poly t.bboxIntersectPolygon) / bboxArea⟩
      simp only [List.length_append, List.length_cons, List.length_nil] at hlen hih ⊢
      have hsub : ((selectLoop unionP area bboxArea rest
          ⟨st.selected ++ [t.stacItem],
            unionP st.poly t.bboxIntersectPolygon,
            area (unionP st.poly t.bboxIntersectPolygon) / bboxArea⟩).selected.length
          - st.selected.length : ℕ)
          = ((selectLoop unionP area bboxArea rest
          ⟨st.selected ++ [t.stacItem],
            unionP st.poly t.bboxIntersectPolygon,
            area (unionP st.poly t.bboxIntersectPolygon) / bboxArea⟩).selected.length
          - (st.selected.length + 1) : ℕ) + 1 := by omega
      rw [hsub]
      push_cast
      linarith
    · exact ih st
    · simp

/-- C5: along the greedy walk of findBestItem the running coverage ratio
never decreases (indeed it gains more than 0.001 per accepted scene), the
walk is a no-op once the running ratio has reached the near-100% threshold
`bboxCoverageThr`, and a candidate whose unioned ratio improves on the
running ratio by at most 0.001 is skipped, leaving the state unchanged for
that candidate. -/
theorem selectLoop_monotone_greedy (P : Type) (unionP : P → P → P)
    (area : P → ℚ) (bboxArea : ℚ) (cands : List (TileIndex P))
    (st : SelState P) :
    st.ratio ≤ (selectLoop unionP area bboxArea cands st).ratio
    ∧ st.ratio + (((selectLoop unionP area bboxArea cands st).selected.length
          - st.selected.length : ℕ) : ℚ) / 1000
        ≤ (selectLoop unionP area bboxArea cands st).ratio
    ∧ (bboxCoverageThr ≤ st.ratio →
        selectLoop unionP area bboxArea cands st = st)
    ∧ (∀ t rest, cands = t :: rest → st.ratio < bboxCoverageThr →
        area (unionP st.poly t.bboxIntersectPolygon) / bboxArea - st.ratio
          ≤ 1/1000 →
        selectLoop unionP area bboxArea cands st
          = selectLoop unionP area bboxArea rest st) := by
  refine ⟨?_, selectLoop_margin unionP area bboxArea cands st, ?_, ?_⟩
  · have h := selectLoop_margin unionP area bboxArea cands st
    have hge : (0:ℚ) ≤ (((selectLoop unionP area bboxArea cands st).selected.length
        - st.selected.length : ℕ) : ℚ) / 1000 := by positivity
    linarith
  · intro h
    cases cands with
    | nil => rfl
    | cons t rest => simp [selectLoop, not_lt.mpr h]
  · intro t rest hc h1 h2
    subst hc
    simp only [selectLoop, if_pos h1]
    rw [if_neg (by linarith)]

/-- Witness for C5: a concrete one-candidate walk from ratio 1/2 where the
union adds no area (gain 0 ≤ 0.001), so the candidate is skipped; and a
walk from ratio 1, already at the threshold, which is a no-op. -/
theorem selectLoop_monotone_greedy_witness :
    ((1:ℚ)/2 < bboxCoverageThr
      ∧ (fun (_ : Unit) => (1:ℚ)/2) ((fun (_ : Unit) (_ : Unit) => ()) () ()) / 1
          - 1/2 ≤ 1/1000
      ∧ selectLoop (fun _ _ => ()) (fun _ => (1:ℚ)/2) 1
          [⟨"w", (), 1/2, "d", ⟨"w", (), "d"⟩⟩] ⟨[], (), 1/2⟩
        = selectLoop (fun _ _ => ()) (fun _ => (1:ℚ)/2) 1 [] ⟨[], (), 1/2⟩)
    ∧ (bboxCoverageThr ≤ (1:ℚ)
      ∧ selectLoop (fun _ _ => ()) (fun _ => (1:ℚ)/2) 1
          [⟨"w", (), 1/2, "d", ⟨"w", (), "d"⟩⟩] ⟨[], (), 1⟩
        = ⟨[], (), 1⟩) := by
  constructor
  · have h1 : (1:ℚ)/2 < bboxCoverageThr := by norm_num [bboxCoverageThr]
    have h2 : (fun (_ : Unit) => (1:ℚ)/2) ((fun (_ : Unit) (_ : Unit) => ()) () ()) / 1
        - 1/2 ≤ 1/1000 := by norm_num
    exact ⟨h1, h2,
      (selectLoop_monotone_greedy Unit (fun _ _ => ()) (fun _ => (1:ℚ)/2) 1
        [⟨"w", (), 1/2, "d", ⟨"w", (), "d"⟩⟩] ⟨[], (), 1/2⟩).2.2.2
        ⟨"w", (), 1/2, "d", ⟨"w", (), "d"⟩⟩ [] rfl h1 h2⟩
  · have h3 : bboxCoverageThr ≤ (1:ℚ) := by norm_num [bboxCoverageThr]
    exact ⟨h3,
      (selectLoop_monotone_greedy Unit (fun _ _ => ()) (fun _ => (1:ℚ)/2) 1
        [⟨"w", (), 1/2, "d", ⟨"w", (), "d"⟩⟩] ⟨[], (), 1⟩).2.2.1 h3⟩

lemma fetchLoop_stop (inter : P → P → Option P) (unionP : P → P → P)
    (area : P → ℚ) (bboxPolygon : P) (bboxArea : ℚ)
    (network : ℕ → List (Scene P)) (fuel i : ℕ) (cache : List (Scene P))
    (best : Option (List (Scene P)) × ℚ) (nCalls : ℕ)
    (h : ¬ best.2 < bboxCoverageThr) :
    fetchLoop inter unionP area bboxPolygon bboxArea network
        fuel i cache best nCalls = (cache, best, nCalls) := by
  cases fuel with
  | zero => rfl
  | succ fuel => simp [fetchLoop, h]

lemma fetchLoop_calls_le (inter : P → P → Option P) (unionP : P → P → P)
    (area : P → ℚ) (bboxPolygon : P) (bboxArea : ℚ)
    (network : ℕ → List (Scene P)) (fuel i : ℕ) (cache : List (Scene P))
    (best : Option (List (Scene P)) × ℚ) (nCalls : ℕ) :
    (fetchLoop inter unionP area bboxPolygon bboxArea network
        fuel i cache best nCalls).2.2 ≤ nCalls + fuel := by
  induction fuel generalizing i cache best nCalls with
  | zero => simp [fetchLoop]
  | succ fuel ih =>
    simp only [fetchLoop]
    split_ifs with h
    · calc (fetchLoop inter unionP area bboxPolygon bboxArea network fuel
            (i + 1) _ _ (nCalls + 1)).2.2
          ≤ (nCalls + 1) + fuel := ih _ _ _ _
        _ = nCalls + (fuel + 1) := by omega
    · simp

/-- C6: one `fetchLatestS2` request performs at most 2 network round
trips, and performs none at all when the already-cached scene set reaches
the near-100% coverage threshold for the window. -/
theorem fetchLatestS2_network_calls (P : Type) (inter : P → P → Option P)
    (unionP : P → P → P) (area : P → ℚ) (bboxPolygon : P) (bboxArea : ℚ)
    (network : ℕ → List (Scene P)) (cache0 : List (Scene P)) :
    (fetchLatestS2 inter unionP area bboxPolygon bboxArea network cache0).2.2
        ≤ 2
    ∧ (bboxCoverageThr
          ≤ (findBestItem inter unionP area bboxPolygon bboxArea cache0).2 →
        (fetchLatestS2 inter unionP area bboxPolygon bboxArea network
            cache0).2.2 = 0) := by
  constructor
  · have h := fetchLoop_calls_le inter unionP area bboxPolygon bboxArea network
      2 0 cache0 (findBestItem inter unionP area bboxPolygon bboxArea cache0) 0
    simp only [fetchLatestS2]
    split_ifs <;> simpa using h
  · intro h
    have hstop := fetchLoop_stop inter unionP area bboxPolygon bboxArea network
      2 0 cache0 (findBestItem inter unionP area bboxPolygon bboxArea cache0) 0
      (not_lt.mpr h)
    simp only [fetchLatestS2, hstop]
    split_ifs <;> rfl

/-- Witness for C6: a window fully covered by the single cached scene
(ratio 1 ≥ threshold) triggers zero network calls. -/
theorem fetchLatestS2_network_calls_witness :
    (bboxCoverageThr
      ≤ (findBestItem (fun (_ _ : Unit) => some ()) (fun _ _ => ())
          (fun _ => (1:ℚ)) () 1 [⟨"s1", (), "2024-06-01T00:00:00Z"⟩]).2)
    ∧ (fetchLatestS2 (fun (_ _ : Unit) => some ()) (fun _ _ => ())
        (fun _ => (1:ℚ)) () 1 (fun _ => [])
        [⟨"s1", (), "2024-06-01T00:00:00Z"⟩]).2.2 = 0 := by
  have h : bboxCoverageThr
      ≤ (findBestItem (fun (_ _ : Unit) => some ()) (fun _ _ => ())
          (fun _ => (1:ℚ)) () 1 [⟨"s1", (), "2024-06-01T00:00:00Z"⟩]).2 := by
    norm_num [findBestItem, candidateList, jsSort, sortInsert, selectLoop,
      roundRatio2, bboxCoverageThr, List.filterMap_cons]
  exact ⟨h, (fetchLatestS2_network_calls Unit (fun _ _ => some ())
    (fun _ _ => ()) (fun _ => (1:ℚ)) () 1 (fun _ => [])
    [⟨"s1", (), "2024-06-01T00:00:00Z"⟩]).2 h⟩

/-- C3: evaluated at a window no scene intersects (final coverage ratio 0,
at or below the 1% low threshold): `fetchLatestS2` resolves with
`[null, false]` — it does report no usable scenes — but `createTile` then
iterates `for (const stacItem of null)`, and the thrown TypeError is
posted as a `done` message carrying a non-null error, so the tile fails
instead of resolving with an empty/no-scenes result. -/
theorem fetchLatestS2_noCoverage_typeError :
    (fetchLatestS2 (fun (_ _ : Unit) => (none : Option Unit)) (fun _ _ => ())
        (fun _ => (0:ℚ)) () 1 (fun _ => []) []).1
      = (none, false)
    ∧ createTileOnFetch
        (fetchLatestS2 (fun (_ _ : Unit) => (none : Option Unit)) (fun _ _ => ())
          (fun _ => (0:ℚ)) () 1 (fun _ => []) []).1
      = .doneError (.other "TypeError") := by
  have h : (fetchLatestS2 (fun (_ _ : Unit) => (none : Option Unit)) (fun _ _ => ())
      (fun _ => (0:ℚ)) () 1 (fun _ => []) []).1 = (none, false) := by
    norm_num [fetchLatestS2, fetchLoop, findBestItem, updateCachedItems,
      bboxCoverageThr]
  exact ⟨h, by rw [h]; rfl⟩

/-! ## Warp engine (worker lines 213-260)

`origCellImage` is the raster window read from the GeoTIFF: three band
planes indexed by flat offset, plus width and height.  `warpedImage.data`
(a `Uint8ClampedArray`) is a flat byte store `ℕ → ℕ`; `warpCellImage`
mutates it in place, embedded as a function from the initial store to the
final one.  The corner transform of lines 214-223 is hoisted out of the
loop in the source; here it is recomputed per pixel (it is pure). -/

structure RawImage where
  width : ℕ
  height : ℕ
  band0 : ℕ → ℕ
  band1 : ℕ → ℕ
  band2 : ℕ → ℕ

structure Size where
  x : ℕ
  y : ℕ

/-- The four cell corners (`cellCoordsUtm`, order A B C D = the
destination grid's top-left, top-right, bottom-right, bottom-left). -/
structure Quad where
  a : ℚ × ℚ
  b : ℚ × ℚ
  c : ℚ × ℚ
  d : ℚ × ℚ

/-- A turf bbox `[minX, minY, maxX, maxY]`. -/
structure BBoxQ where
  minX : ℚ
  minY : ℚ
  maxX : ℚ
  maxY : ℚ

/-- Lines 214-223: origin `[bbox[0], bbox[3]]`, per-axis resolution, and
the transform of the UTM corners into source pixel space. -/
def cornerPixels (orig : RawImage) (cellCoordsUtm : Quad)
    (cellBboxUtm : BBoxQ) : Quad :=
  let origin := (cellBboxUtm.minX, cellBboxUtm.maxY)
  let resolution := ((cellBboxUtm.maxX - cellBboxUtm.minX) / (orig.width : ℚ),
    (cellBboxUtm.minY - cellBboxUtm.maxY) / (orig.height : ℚ))
  let toPix := fun (p : ℚ × ℚ) =>
    ((p.1 - origin.1) / resolution.1, (p.2 - origin.2) / resolution.2)
  ⟨toPix cellCoordsUtm.a, toPix cellCoordsUtm.b,
    toPix cellCoordsUtm.c, toPix cellCoordsUtm.d⟩

/-- Lines 225-241: the corner vectors AB, AD, BC, BC-AD, and the source
point for output pixel (x, y) with normalized coordinates
`x1 = x/cellSize.x`, `y1 = y/cellSize.y`.  Line 241 of the source uses
`BCsubAD[0]` — the x component — in the y coordinate as well. -/
def bilinearSrc (A B C D : ℚ × ℚ) (cellSize : Size) (x y : ℕ) : ℚ × ℚ :=
  let AB := (B.1 - A.1, B.2 - A.2)
  let AD := (D.1 - A.1, D.2 - A.2)
  let BC := (C.1 - B.1, C.2 - B.2)
  let BCsubAD := (BC.1 - AD.1, BC.2 - AD.2)
  let x1 : ℚ := (x : ℚ) / (cellSize.x : ℚ)
  let y1 : ℚ := (y : ℚ) / (cellSize.y : ℚ)
  (A.1 + x1 * AB.1 + y1 * AD.1 + x1 * y1 * BCsubAD.1,
   A.2 + x1 * AB.2 + y1 * AD.2 + x1 * y1 * BCsubAD.1)

/-- Lines 243-246: `Math.round`, then clamp into the source raster. -/
def srcPixelIndex (A B C D : ℚ × ℚ) (cellSize : Size) (w h : ℕ)
    (x y : ℕ) : ℤ × ℤ :=
  let p := bilinearSrc A B C D cellSize x y
  (min (max (round p.1) 0) ((w : ℤ) - 1),
   min (max (round p.2) 0) ((h : ℤ) - 1))

/-- The mapping as the spec states it (refinement comparison for C1):
`P = A + u(B-A) + v(D-A) + uv((C-B)-(D-A))` applied in both coordinates,
the y component built from the y components of the corner vectors. -/
def bilinearSrcSpec (A B C D : ℚ × ℚ) (cellSize : Size) (x y : ℕ) : ℚ × ℚ :=
  let AB := (B.1 - A.1, B.2 - A.2)
  let AD := (D.1 - A.1, D.2 - A.2)
  let BC := (C.1 - B.1, C.2 - B.2)
  let BCsubAD := (BC.1 - AD.1, BC.2 - AD.2)
  let x1 : ℚ := (x : ℚ) / (cellSize.x : ℚ)
  let y1 : ℚ := (y : ℚ) / (cellSize.y : ℚ)
  (A.1 + x1 * AB.1 + y1 * AD.1 + x1 * y1 * BCsubAD.1,
   A.2 + x1 * AB.2 + y1 * AD.2 + x1 * y1 * BCsubAD.2)

/-- Round-and-clamp wrapper of the spec mapping. -/
def srcPixelIndexSpec (A B C D : ℚ × ℚ) (cellSize : Size) (w h : ℕ)
    (x y : ℕ) : ℤ × ℤ :=
  let p := bilinearSrcSpec A B C D cellSize x y
  (min (max (round p.1) 0) ((w : ℤ) - 1),
   min (max (round p.2) 0) ((h : ℤ) - 1))

/-- Line 248: `srcOffset = y0*width + x0` for the clamped source pixel of
output pixel (x, y). -/
def mappedSrcOffset (orig : RawImage) (quad : Quad) (bbox : BBoxQ)
    (cellSize : Size) (x y : ℕ) : ℕ :=
  let q := cornerPixels orig quad bbox
  let s := srcPixelIndex q.a q.b q.c q.d cellSize orig.width orig.height x y
  s.2.toNat * orig.width + s.1.toNat

/-- Single byte store into the flat image buffer. -/
def setByte (img : ℕ → ℕ) (i v : ℕ) : ℕ → ℕ :=
  fun j => if j = i then v else img j

/-- Lines 237-256, the body of the double loop for output pixel (x, y):
skip when the destination alpha is already 255; sample the mapped source
offset; skip an all-zero RGB sample; otherwise store the three bands and
alpha 255. -/
def writePixel (orig : RawImage) (quad : Quad) (bbox : BBoxQ)
    (cellSize : Size) (img : ℕ → ℕ) (x y : ℕ) : ℕ → ℕ :=
  let dstOffset := 4 * (y * cellSize.x + x)
  if img (dstOffset + 3) ≠ 255 then
    let srcOffset := mappedSrcOffset orig quad bbox cellSize x y
    if 0 < orig.band0 srcOffset ∨ 0 < orig.band1 srcOffset
        ∨ 0 < orig.band2 srcOffset then
      setByte (setByte (setByte (setByte img
        dstOffset (byteClamp (orig.band0 srcOffset)))
        (dstOffset + 1) (byteClamp (orig.band1 srcOffset)))
        (dstOffset + 2) (byteClamp (orig.band2 srcOffset)))
        (dstOffset + 3) 255
    else img
  else img

/-- `warpCellImage` (lines 213-260): the row-major double loop of
`writePixel` over the output buffer. -/
def warpCellImage (orig : RawImage) (warped0 : ℕ → ℕ) (cellCoordsUtm : Quad)
    (cellBboxUtm : BBoxQ) (cellSize : Size) : ℕ → ℕ :=
  (List.range cellSize.y).foldl (fun im y =>
    (List.range cellSize.x).foldl (fun im2 x =>
      writePixel orig cellCoordsUtm cellBboxUtm cellSize im2 x y) im) warped0

/-- A 20×20 source window whose pixel grid coincides with UTM units
(resolution (1, -1), origin (0, 0)), with all-zero bands. -/
def warpDemoImage : RawImage := ⟨20, 20, fun _ => 0, fun _ => 0, fun _ => 0⟩

/-- Corners mapping to source pixel coordinates A=(0,0), B=(10,0),
C=(10,12), D=(0,10) — a quadrilateral whose two skew terms differ. -/
def warpDemoQuad : Quad := ⟨(0, 0), (10, 0), (10, -12), (0, -10)⟩

def warpDemoBBox : BBoxQ := ⟨0, -20, 20, 0⟩

/-- C1: at the corners of `warpDemoQuad` and output pixel (1,1) of a 2×2
tile (u = v = 1/2), the code maps to source pixel (5, 5) while the claimed
formula — the bilinear blend applied in both coordinates — maps to (5, 6):
line 241 uses the x component `BCsubAD[0]` in the y coordinate, so the y
component is not computed from the y components of the corner vectors. -/
theorem warp_y_uses_x_component :
    srcPixelIndex (cornerPixels warpDemoImage warpDemoQuad warpDemoBBox).a
        (cornerPixels warpDemoImage warpDemoQuad warpDemoBBox).b
        (cornerPixels warpDemoImage warpDemoQuad warpDemoBBox).c
        (cornerPixels warpDemoImage warpDemoQuad warpDemoBBox).d
        ⟨2, 2⟩ 20 20 1 1 = (5, 5)
    ∧ srcPixelIndexSpec (cornerPixels warpDemoImage warpDemoQuad warpDemoBBox).a
        (cornerPixels warpDemoImage warpDemoQuad warpDemoBBox).b
        (cornerPixels warpDemoImage warpDemoQuad warpDemoBBox).c
        (cornerPixels warpDemoImage warpDemoQuad warpDemoBBox).d
        ⟨2, 2⟩ 20 20 1 1 = (5, 6) := by
  constructor <;>
    norm_num [srcPixelIndex, srcPixelIndexSpec, bilinearSrc, bilinearSrcSpec,
      cornerPixels, warpDemoImage, warpDemoQuad, warpDemoBBox, round_eq]

lemma writePixel_frame (orig : RawImage) (quad : Quad) (bbox : BBoxQ)
    (cellSize : Size) (img : ℕ → ℕ) (x y j : ℕ)
    (h : ∀ r, r < 4 → j ≠ 4 * (y * cellSize.x + x) + r) :
    writePixel orig quad bbox cellSize img x y j = img j := by
  have h0 : j ≠ 4 * (y * cellSize.x + x) := by
    have := h 0 (by omega); omega
  have h1 := h 1 (by omega)
  have h2 := h 2 (by omega)
  have h3 := h 3 (by omega)
  simp only [writePixel]
  split_ifs with ha hb
  · simp [setByte, h0, h1, h2, h3]
  · rfl
  · rfl

lemma pixel_offset_inj (w x x2 y y2 r r2 : ℕ) (hx : x < w) (hx2 : x2 < w)
    (hr : r < 4) (hr2 : r2 < 4)
    (heq : 4 * (y * w + x) + r = 4 * (y2 * w + x2) + r2) :
    x = x2 ∧ y = y2 ∧ r = r2 := by
  have hpq : y * w + x = y2 * w + x2 ∧ r = r2 := by omega
  obtain ⟨hpq1, hrr⟩ := hpq
  have hw : 0 < w := by omega
  have ex : x % w = x := Nat.mod_eq_of_lt hx
  have ex2 : x2 % w = x2 := Nat.mod_eq_of_lt hx2
  have hxx : x = x2 := by
    rw [Nat.mul_comm y w, Nat.mul_comm y2 w] at hpq1
    have hmod := congrArg (fun t => t % w) hpq1
    simpa [Nat.mul_add_mod, ex, ex2] using hmod
  subst hxx
  have hyy : y = y2 := by
    have hmul : y * w = y2 * w := by omega
    exact Nat.eq_of_mul_eq_mul_right hw hmul
  exact ⟨rfl, hyy, hrr⟩

lemma foldl_row_preserves (orig : RawImage) (quad : Quad) (bbox : BBoxQ)
    (cellSize : Size) (warped0 : ℕ → ℕ) (x y : ℕ) (hx : x < cellSize.x)
    (hid : ∀ img : ℕ → ℕ,
      (∀ r, r < 4 → img (4 * (y * cellSize.x + x) + r)
        = warped0 (4 * (y * cellSize.x + x) + r)) →
      writePixel orig quad bbox cellSize img x y = img)
    (y2 : ℕ) (xs : List ℕ) (hxs : ∀ x2 ∈ xs, x2 < cellSize.x)
    (img : ℕ → ℕ)
    (hP : ∀ r, r < 4 → img (4 * (y * cellSize.x + x) + r)
      = warped0 (4 * (y * cellSize.x + x) + r)) :
    ∀ r, r < 4 →
      (xs.foldl (fun im2 x2 => writePixel orig quad bbox cellSize im2 x2 y2) img)
          (4 * (y * cellSize.x + x) + r)
        = warped0 (4 * (y * cellSize.x + x) + r) := by
  induction xs generalizing img with
  | nil => exact hP
  | cons x2 rest ih =>
    have hx2 : x2 < cellSize.x := hxs x2 (List.mem_cons_self x2 rest)
    have hP2 : ∀ r, r < 4 →
        (writePixel orig quad bbox cellSize img x2 y2)
            (4 * (y * cellSize.x + x) + r)
          = warped0 (4 * (y * cellSize.x + x) + r) := by
      by_cases hsame : x2 = x ∧ y2 = y
      · obtain ⟨rfl, rfl⟩ := hsame
        rw [hid img hP]
        exact hP
      · intro r hr
        rw [writePixel_frame orig quad bbox cellSize img x2 y2 _
          (fun r2 hr2 heq => hsame
            ⟨(pixel_offset_inj cellSize.x x x2 y y2 r r2 hx hx2 hr hr2 heq).1.symm,
             (pixel_offset_inj cellSize.x x x2 y y2 r r2 hx hx2 hr hr2 heq).2.1.symm⟩)]
        exact hP r hr
    simpa only [List.foldl_cons] using
      ih (fun a ha => hxs a (List.mem_cons_of_mem x2 ha)) _ hP2

lemma warp_preserves (orig : RawImage) (quad : Quad) (bbox : BBoxQ)
    (cellSize : Size) (warped0 : ℕ → ℕ) (x y : ℕ) (hx : x < cellSize.x)
    (hid : ∀ img : ℕ → ℕ,
      (∀ r, r < 4 → img (4 * (y * cellSize.x + x) + r)
        = warped0 (4 * (y * cellSize.x + x) + r)) →
      writePixel orig quad bbox cellSize img x y = img)
    (ys : List ℕ) (img : ℕ → ℕ)
    (hP : ∀ r, r < 4 → img (4 * (y * cellSize.x + x) + r)
      = warped0 (4 * (y * cellSize.x + x) + r)) :
    ∀ r, r < 4 →
      (ys.foldl (fun im y2 =>
          (List.range cellSize.x).foldl
            (fun im2 x2 => writePixel orig quad bbox cellSize im2 x2 y2) im) img)
          (4 * (y * cellSize.x + x) + r)
        = warped0 (4 * (y * cellSize.x + x) + r) := by
  induction ys generalizing img with
  | nil => exact hP
  | cons y2 rest ih =>
    have hP2 := foldl_row_preserves orig quad bbox cellSize warped0 x y hx hid
      y2 (List.range cellSize.x) (fun a ha => List.mem_range.mp ha) img hP
    simpa only [List.foldl_cons] using ih _ hP2

/-- C10: across repeated `warpCellImage` calls into one output buffer, an
output pixel whose alpha byte is already 255 is left byte-for-byte
unchanged, and a pixel whose mapped source sample has R = G = B = 0 is
treated as nodata and never written, so its four bytes also stay exactly
as they were — later (older) scenes can only fill pixels that are still
non-opaque and whose sample is non-nodata. -/
theorem warpCellImage_compositing (orig : RawImage) (warped0 : ℕ → ℕ)
    (quad : Quad) (bbox : BBoxQ) (cellSize : Size) (x y : ℕ)
    (hx : x < cellSize.x) :
    (warped0 (4 * (y * cellSize.x + x) + 3) = 255 →
      ∀ r, r < 4 →
        warpCellImage orig warped0 quad bbox cellSize
            (4 * (y * cellSize.x + x) + r)
          = warped0 (4 * (y * cellSize.x + x) + r))
    ∧ (orig.band0 (mappedSrcOffset orig quad bbox cellSize x y) = 0 →
       orig.band1 (mappedSrcOffset orig quad bbox cellSize x y) = 0 →
       orig.band2 (mappedSrcOffset orig quad bbox cellSize x y) = 0 →
      ∀ r, r < 4 →
        warpCellImage orig warped0 quad bbox cellSize
            (4 * (y * cellSize.x + x) + r)
          = warped0 (4 * (y * cellSize.x + x) + r)) := by
  constructor
  · intro h255
    apply warp_preserves orig quad bbox cellSize warped0 x y hx
      ?_ (List.range cellSize.y) warped0 (fun r hr => rfl)
    intro img hPinv
    have halpha : img (4 * (y * cellSize.x + x) + 3) = 255 :=
      (hPinv 3 (by omega)).trans h255
    simp [writePixel, halpha]
  · intro h0 h1 h2
    apply warp_preserves orig quad bbox cellSize warped0 x y hx
      ?_ (List.range cellSize.y) warped0 (fun r hr => rfl)
    intro img _
    simp [writePixel, h0, h1, h2]

/-- Witness for C10: on a 1×1 tile over a nodata (all-zero) source sample
the destination byte 0 keeps its initial value 7, and with an initial
buffer whose alpha byte is 255 the alpha byte keeps its value 255. -/
theorem warpCellImage_compositing_witness :
    warpCellImage ⟨1, 1, (fun _ => 0), (fun _ => 0), (fun _ => 0)⟩
        (fun _ => 7) ⟨(0, 0), (1, 0), (1, -1), (0, -1)⟩ ⟨0, -1, 1, 0⟩
        ⟨1, 1⟩ (4 * (0 * Size.x ⟨1, 1⟩ + 0) + 0) = 7
    ∧ warpCellImage ⟨1, 1, (fun _ => 0), (fun _ => 0), (fun _ => 0)⟩
        (fun _ => 255) ⟨(0, 0), (1, 0), (1, -1), (0, -1)⟩ ⟨0, -1, 1, 0⟩
        ⟨1, 1⟩ (4 * (0 * Size.x ⟨1, 1⟩ + 0) + 3) = 255 := by
  constructor
  · exact (warpCellImage_compositing
      ⟨1, 1, (fun _ => 0), (fun _ => 0), (fun _ => 0)⟩ (fun _ => 7)
      ⟨(0, 0), (1, 0), (1, -1), (0, -1)⟩ ⟨0, -1, 1, 0⟩ ⟨1, 1⟩ 0 0
      (by decide)).2 rfl rfl rfl 0 (by omega)
  · exact (warpCellImage_compositing
      ⟨1, 1, (fun _ => 0), (fun _ => 0), (fun _ => 0)⟩ (fun _ => 255)
      ⟨(0, 0), (1, 0), (1, -1), (0, -1)⟩ ⟨0, -1, 1, 0⟩ ⟨1, 1⟩ 0 0
      (by decide)).1 rfl 3 (by omega)

/-! ## NDVI colorizer (worker lines 337-404) -/

/-- A colormap entry `[ndvi, R, G, B]`. -/
structure Stop where
  v : ℚ
  r : ℤ
  g : ℤ
  b : ℤ
deriving DecidableEq

/-- The color stops of `ndviToRGB` (lines 363-382). -/
def colormap : List Stop :=
  [⟨0,     0xea, 0xea, 0xea⟩,
   ⟨0.025, 0xff, 0xf9, 0xcc⟩,
   ⟨0.05,  0xed, 0xe8, 0xb5⟩,
   ⟨0.075, 0xdd, 0xd8, 0x9b⟩,
   ⟨0.1,   0xcc, 0xc6, 0x82⟩,
   ⟨0.125, 0xbc, 0xb7, 0x6b⟩,
   ⟨0.15,  0xaf, 0xc1, 0x60⟩,
   ⟨0.175, 0xa3, 0xcc, 0x59⟩,
   ⟨0.2,   0x91, 0xbf, 0x51⟩,
   ⟨0.25,  0x7f, 0xb2, 0x47⟩,
   ⟨0.3,   0x70, 0xa3, 0x3f⟩,
   ⟨0.35,  0x60, 0x96, 0x35⟩,
   ⟨0.4,   0x4f, 0x89, 0x2d⟩,
   ⟨0.45,  0x3f, 0x7c, 0x23⟩,
   ⟨0.5,   0x30, 0x6d, 0x1c⟩,
   ⟨0.55,  0x21, 0x60, 0x11⟩,
   ⟨0.6,   0x0f, 0x54, 0x0a⟩,
   ⟨1,     0x00, 0x44, 0x00⟩]

/-- The surrounding-stops search (lines 385-393): the first adjacent pair
`(colormap[i], colormap[i+1])` with `colormap[i].v ≤ ndvi ≤
colormap[i+1].v`; `none` when no pair brackets. -/
def findBracket (ndvi : ℚ) : List Stop → Option (Stop × Stop)
  | a :: b :: rest =>
      if a.v ≤ ndvi ∧ ndvi ≤ b.v then some (a, b)
      else findBracket ndvi (b :: rest)
  | _ => none

/-- One channel of lines 399-401: `Math.round(lower + t * (upper - lower))`. -/
def interpChannel (lower upper : ℤ) (t : ℚ) : ℤ :=
  round ((lower : ℚ) + t * ((upper : ℚ) - (lower : ℚ)))

/-- `ndviToRGB` (lines 361-404): bracketing stops (defaulting to the first
and last stop when no pair brackets), normalized position `t`, and the
three rounded interpolated channels. -/
def ndviToRGB (ndvi : ℚ) : ℤ × ℤ × ℤ :=
  let lu := (findBracket ndvi colormap).getD
    (colormap.headD ⟨0, 0, 0, 0⟩, colormap.getLastD ⟨0, 0, 0, 0⟩)
  let t := (ndvi - lu.1.v) / (lu.2.v - lu.1.v)
  (interpChannel lu.1.r lu.2.r t,
   interpChannel lu.1.g lu.2.g t,
   interpChannel lu.1.b lu.2.b t)

/-- Line 351: `ndvi = Math.max(0, Math.min(ndvi, 1))`. -/
def jsClamp01 (x : ℚ) : ℚ := max 0 (min x 1)

/-- One pixel of `calculateNdvi` (lines 346-356): a pixel with both bands
zero (falsy) is skipped, leaving the `fill(0)` initial value; otherwise
the normalized difference is clamped to [0,1] and colorized. -/
def calculateNdviPixel (red nir : ℚ) : ℤ × ℤ × ℤ :=
  if red = 0 ∧ nir = 0 then (0, 0, 0)
  else ndviToRGB (jsClamp01 ((nir - red) / (nir + red)))

/-- `calculateNdvi` over band planes of length `n`. -/
def calculateNdvi (n : ℕ) (red nir : ℕ → ℚ) : ℕ → ℤ × ℤ × ℤ :=
  fun i => if i < n then calculateNdviPixel (red i) (nir i) else (0, 0, 0)

/-- The colormap stops increase strictly in their ndvi value. -/
def stopLt (s t : Stop) : Prop := s.v < t.v

instance : IsTrans Stop stopLt := ⟨fun _ _ _ h1 h2 => lt_trans h1 h2⟩

lemma colormap_chain : List.Chain' stopLt colormap := by
  norm_num [colormap, List.chain'_cons, stopLt]

lemma colormap_get_lt {j k : ℕ} (hj : j < colormap.length)
    (hk : k < colormap.length) (hjk : j < k) :
    (colormap.get ⟨j, hj⟩).v < (colormap.get ⟨k, hk⟩).v := by
  have hpw : List.Pairwise stopLt colormap :=
    List.chain'_iff_pairwise.mp colormap_chain
  exact List.pairwise_iff_get.mp hpw ⟨j, hj⟩ ⟨k, hk⟩ (Fin.mk_lt_mk.mpr hjk)

lemma findBracket_some_bounds (x : ℚ) :
    ∀ (l : List Stop) (p : Stop × Stop), findBracket x l = some p →
      p.1.v ≤ x ∧ x ≤ p.2.v := by
  intro l
  induction l with
  | nil => intro p hp; simp [findBracket] at hp
  | cons a tail ih =>
    intro p hp
    cases tail with
    | nil => simp [findBracket] at hp
    | cons b rest =>
      by_cases hab : a.v ≤ x ∧ x ≤ b.v
      · simp only [findBracket, if_pos hab] at hp
        injection hp with h
        subst h
        exact hab
      · simp only [findBracket, if_neg hab] at hp
        exact ih p hp

lemma findBracket_some_adjacent (x : ℚ) :
    ∀ (l : List Stop) (p : Stop × Stop), findBracket x l = some p →
      ∃ j, ∃ (h1 : j < l.length) (h2 : j + 1 < l.length),
        l.get ⟨j, h1⟩ = p.1 ∧ l.get ⟨j + 1, h2⟩ = p.2 := by
  intro l
  induction l with
  | nil => intro p hp; simp [findBracket] at hp
  | cons a tail ih =>
    intro p hp
    cases tail with
    | nil => simp [findBracket] at hp
    | cons b rest =>
      by_cases hab : a.v ≤ x ∧ x ≤ b.v
      · simp only [findBracket, if_pos hab] at hp
        injection hp with h
        subst h
        exact ⟨0, by simp, by simp, rfl, rfl⟩
      · simp only [findBracket, if_neg hab] at hp
        obtain ⟨j, h1, h2, hja, hjb⟩ := ih p hp
        refine ⟨j + 1, ?_, ?_, ?_, ?_⟩
        · simpa using Nat.succ_lt_succ h1
        · simpa using Nat.succ_lt_succ h2
        · simpa using hja
        · simpa using hjb

lemma findBracket_isSome (x : ℚ) :
    ∀ (l : List Stop) (i : ℕ) (h1 : i < l.length) (h2 : i + 1 < l.length),
      (l.get ⟨i, h1⟩).v ≤ x → x ≤ (l.get ⟨i + 1, h2⟩).v →
      ∃ p, findBracket x l = some p := by
  intro l
  induction l with
  | nil => intro i h1; simp at h1
  | cons a tail ih =>
    intro i h1 h2 hl hu
    cases tail with
    | nil => simp at h2
    | cons b rest =>
      by_cases hab : a.v ≤ x ∧ x ≤ b.v
      · exact ⟨(a, b), by simp [findBracket, if_pos hab]⟩
      · cases i with
        | zero => exact absurd ⟨hl, hu⟩ hab
        | succ i =>
          obtain ⟨p, hp⟩ := ih i
            (by simp only [List.length_cons] at h1 ⊢; omega)
            (by simp only [List.length_cons] at h2 ⊢; omega)
            (by simpa using hl) (by simpa using hu)
          exact ⟨p, by simpa [findBracket, if_neg hab] using hp⟩

lemma round_le_round_q {a b : ℚ} (h : a ≤ b) : round a ≤ round b := by
  rw [round_eq, round_eq]
  exact Int.floor_le_floor (by linarith)

lemma interpChannel_between (c1 c2 : ℤ) (t : ℚ) (h0 : 0 ≤ t) (h1 : t ≤ 1) :
    min c1 c2 ≤ interpChannel c1 c2 t ∧ interpChannel c1 c2 t ≤ max c1 c2 := by
  have hlow : ((min c1 c2 : ℤ) : ℚ) ≤ (c1 : ℚ) + t * ((c2 : ℚ) - (c1 : ℚ)) := by
    rcases le_total c1 c2 with h | h
    · have hc : ((c1 : ℚ)) ≤ (c2 : ℚ) := by exact_mod_cast h
      rw [min_eq_left h]
      nlinarith [mul_nonneg h0 (sub_nonneg.mpr hc)]
    · have hc : ((c2 : ℚ)) ≤ (c1 : ℚ) := by exact_mod_cast h
      rw [min_eq_right h]
      nlinarith [mul_nonneg (sub_nonneg.mpr h1) (sub_nonneg.mpr hc)]
  have hhigh : (c1 : ℚ) + t * ((c2 : ℚ) - (c1 : ℚ)) ≤ ((max c1 c2 : ℤ) : ℚ) := by
    rcases le_total c1 c2 with h | h
    · have hc : ((c1 : ℚ)) ≤ (c2 : ℚ) := by exact_mod_cast h
      rw [max_eq_right h]
      nlinarith [mul_nonneg (sub_nonneg.mpr h1) (sub_nonneg.mpr hc)]
    · have hc : ((c2 : ℚ)) ≤ (c1 : ℚ) := by exact_mod_cast h
      rw [max_eq_left h]
      nlinarith [mul_nonneg h0 (sub_nonneg.mpr hc)]
  constructor
  · have hr := round_le_round_q hlow
    rwa [round_intCast] at hr
  · have hr := round_le_round_q hhigh
    rwa [round_intCast] at hr

lemma interpChannel_one (c1 c2 : ℤ) : interpChannel c1 c2 1 = c2 := by
  have h : (c1 : ℚ) + 1 * ((c2 : ℚ) - (c1 : ℚ)) = ((c2 : ℤ) : ℚ) := by
    ring
  rw [interpChannel, h, round_intCast]

lemma interpChannel_zero (c1 c2 : ℤ) : interpChannel c1 c2 0 = c1 := by
  have h : (c1 : ℚ) + 0 * ((c2 : ℚ) - (c1 : ℚ)) = ((c1 : ℤ) : ℚ) := by
    ring
  rw [interpChannel, h, round_intCast]

lemma ndviToRGB_between (i : ℕ) (h1 : i < colormap.length)
    (h2 : i + 1 < colormap.length) (x : ℚ)
    (hxl : (colormap.get ⟨i, h1⟩).v ≤ x)
    (hxu : x ≤ (colormap.get ⟨i + 1, h2⟩).v) :
    (min (colormap.get ⟨i, h1⟩).r (colormap.get ⟨i + 1, h2⟩).r
        ≤ (ndviToRGB x).1
      ∧ (ndviToRGB x).1
        ≤ max (colormap.get ⟨i, h1⟩).r (colormap.get ⟨i + 1, h2⟩).r)
    ∧ (min (colormap.get ⟨i, h1⟩).g (colormap.get ⟨i + 1, h2⟩).g
        ≤ (ndviToRGB x).2.1
      ∧ (ndviToRGB x).2.1
        ≤ max (colormap.get ⟨i, h1⟩).g (colormap.get ⟨i + 1, h2⟩).g)
    ∧ (min (colormap.get ⟨i, h1⟩).b (colormap.get ⟨i + 1, h2⟩).b
        ≤ (ndviToRGB x).2.2
      ∧ (ndviToRGB x).2.2
        ≤ max (colormap.get ⟨i, h1⟩).b (colormap.get ⟨i + 1, h2⟩).b) := by
  obtain ⟨p, hp⟩ := findBracket_isSome x colormap i h1 h2 hxl hxu
  obtain ⟨hpl, hpu⟩ := findBracket_some_bounds x colormap p hp
  obtain ⟨j, hj1, hj2, hja, hjb⟩ := findBracket_some_adjacent x colormap p hp
  have hrgb : ndviToRGB x =
      (interpChannel p.1.r p.2.r ((x - p.1.v) / (p.2.v - p.1.v)),
       interpChannel p.1.g p.2.g ((x - p.1.v) / (p.2.v - p.1.v)),
       interpChannel p.1.b p.2.b ((x - p.1.v) / (p.2.v - p.1.v))) := by
    simp [ndviToRGB, hp]
  have hpv : p.1.v < p.2.v := by
    rw [← hja, ← hjb]
    exact colormap_get_lt hj1 hj2 (by omega)
  rcases lt_trichotomy j i with hji | hji | hji
  · -- the found pair ends at i: x is exactly the i-th stop value
    have hj1i : j + 1 = i := by
      by_contra hne
      have hlt : j + 1 < i := by omega
      have := colormap_get_lt hj2 h1 hlt
      rw [hjb] at this
      linarith
    have hj2i : colormap.get ⟨j + 1, hj2⟩ = colormap.get ⟨i, h1⟩ := by
      congr 1
      exact Fin.mk_eq_mk.mpr hj1i
    have hp2 : p.2 = colormap.get ⟨i, h1⟩ := by rw [← hjb, hj2i]
    have hxv : x = p.2.v := by
      have hup : x ≤ (colormap.get ⟨i, h1⟩).v := by rw [← hp2]; exact hpu
      rw [hp2]
      linarith
    have ht : (x - p.1.v) / (p.2.v - p.1.v) = 1 := by
      rw [hxv]
      exact div_self (ne_of_gt (sub_pos.mpr hpv))
    rw [hrgb, ht, interpChannel_one, interpChannel_one, interpChannel_one, hp2]
    exact ⟨⟨min_le_left _ _, le_max_left _ _⟩,
      ⟨min_le_left _ _, le_max_left _ _⟩,
      ⟨min_le_left _ _, le_max_left _ _⟩⟩
  · -- the found pair is exactly (i, i+1)
    subst hji
    have hpa : p.1 = colormap.get ⟨j, h1⟩ := hja.symm
    have hpb : p.2 = colormap.get ⟨j + 1, h2⟩ := hjb.symm
    have hlt : (colormap.get ⟨j, h1⟩).v < (colormap.get ⟨j + 1, h2⟩).v :=
      colormap_get_lt h1 h2 (by omega)
    have ht0 : 0 ≤ (x - p.1.v) / (p.2.v - p.1.v) :=
      div_nonneg (by linarith [hpl]) (by linarith [hpv])
    have ht1 : (x - p.1.v) / (p.2.v - p.1.v) ≤ 1 := by
      rw [div_le_one (by linarith [hpv])]
      linarith [hpu]
    rw [hrgb, hpa, hpb]
    rw [hpa, hpb] at ht0 ht1
    exact ⟨interpChannel_between _ _ _ ht0 ht1,
      interpChannel_between _ _ _ ht0 ht1,
      interpChannel_between _ _ _ ht0 ht1⟩
  · -- the found pair starts at i+1: x is exactly the (i+1)-th stop value
    have hji1 : j = i + 1 := by
      by_contra hne
      have hlt : i + 1 < j := by omega
      have := colormap_get_lt h2 hj1 hlt
      rw [hja] at this
      linarith
    have hp1 : p.1 = colormap.get ⟨i + 1, h2⟩ := by
      rw [← hja]
      congr 1
      exact Fin.mk_eq_mk.mpr hji1
    have hxv : x = p.1.v := by
      rw [hp1]
      have := hpl
      rw [hp1] at this
      linarith
    have ht : (x - p.1.v) / (p.2.v - p.1.v) = 0 := by
      rw [hxv, sub_self, zero_div]
    rw [hrgb, ht, interpChannel_zero, interpChannel_zero, interpChannel_zero, hp1]
    exact ⟨⟨min_le_right _ _, le_max_right _ _⟩,
      ⟨min_le_right _ _, le_max_right _ _⟩,
      ⟨min_le_right _ _, le_max_right _ _⟩⟩

/-- C9: calculateNdvi skips every pixel where both bands are zero (its
output stays at the zero fill); the clamp keeps the index inside [0, 1];
an index of -1 (clamped to 0) and an index of 0 both map to the 0-stop
color 0xeaeaea; an index of 1 maps to the 1.0-stop color 0x004400; and for
an index between two adjacent color stops every interpolated channel of
the output lies between the corresponding channels of the two bracketing
stops. -/
theorem ndvi_colorizer :
    (∀ (n : ℕ) (red nir : ℕ → ℚ) (i : ℕ), i < n → red i = 0 → nir i = 0 →
        calculateNdvi n red nir i = (0, 0, 0))
    ∧ (∀ x : ℚ, 0 ≤ jsClamp01 x ∧ jsClamp01 x ≤ 1)
    ∧ ndviToRGB (jsClamp01 (-1)) = (0xea, 0xea, 0xea)
    ∧ ndviToRGB 0 = (0xea, 0xea, 0xea)
    ∧ ndviToRGB 1 = (0x00, 0x44, 0x00)
    ∧ (∀ (i : ℕ) (h1 : i < colormap.length) (h2 : i + 1 < colormap.length)
          (x : ℚ),
        (colormap.get ⟨i, h1⟩).v ≤ x → x ≤ (colormap.get ⟨i + 1, h2⟩).v →
        (min (colormap.get ⟨i, h1⟩).r (colormap.get ⟨i + 1, h2⟩).r
            ≤ (ndviToRGB x).1
          ∧ (ndviToRGB x).1
            ≤ max (colormap.get ⟨i, h1⟩).r (colormap.get ⟨i + 1, h2⟩).r)
        ∧ (min (colormap.get ⟨i, h1⟩).g (colormap.get ⟨i + 1, h2⟩).g
            ≤ (ndviToRGB x).2.1
          ∧ (ndviToRGB x).2.1
            ≤ max (colormap.get ⟨i, h1⟩).g (colormap.get ⟨i + 1, h2⟩).g)
        ∧ (min (colormap.get ⟨i, h1⟩).b (colormap.get ⟨i + 1, h2⟩).b
            ≤ (ndviToRGB x).2.2
          ∧ (ndviToRGB x).2.2
            ≤ max (colormap.get ⟨i, h1⟩).b (colormap.get ⟨i + 1, h2⟩).b)) := by
  refine ⟨?_, ?_, ?_, ?_, ?_, ?_⟩
  · intro n red nir i hi h0 h1
    simp [calculateNdvi, calculateNdviPixel, hi, h0, h1]
  · intro x
    constructor
    · exact le_max_left 0 (min x 1)
    · simp only [jsClamp01]
      rcases le_total x 1 with h | h <;> simp [min_eq_left, min_eq_right, h]
  · have hcl : jsClamp01 (-1) = 0 := by norm_num [jsClamp01]
    rw [hcl]
    norm_num [ndviToRGB, findBracket, colormap, interpChannel]
  · norm_num [ndviToRGB, findBracket, colormap, interpChannel]
  · norm_num [ndviToRGB, findBracket, colormap, interpChannel]
  · intro i h1 h2 x hxl hxu
    exact ndviToRGB_between i h1 h2 x hxl hxu

/-- Witness for C9: the skip rule at a concrete one-pixel raster, and the
no-overshoot bound for the red channel at index 1/100, which lies between
the first two stops. -/
theorem ndvi_colorizer_witness :
    calculateNdvi 1 (fun _ => 0) (fun _ => 0) 0 = (0, 0, 0)
    ∧ ((colormap.get ⟨0, by norm_num [colormap]⟩).v ≤ 1/100
      ∧ (1:ℚ)/100 ≤ (colormap.get ⟨1, by norm_num [colormap]⟩).v)
    ∧ min (colormap.get ⟨0, by norm_num [colormap]⟩).r
        (colormap.get ⟨1, by norm_num [colormap]⟩).r
      ≤ (ndviToRGB (1/100)).1 := by
  refine ⟨ndvi_colorizer.1 1 (fun _ => 0) (fun _ => 0) 0 (by omega) rfl rfl,
    ⟨?_, ?_⟩, ?_⟩
  · norm_num [colormap]
  · norm_num [colormap]
  · exact (ndvi_colorizer.2.2.2.2.2 0 (by norm_num [colormap])
      (by norm_num [colormap]) (1/100) (by norm_num [colormap])
      (by norm_num [colormap])).1.1

end S2WV
